import Mathlib

/-!
Shallow embedding of the policy-evaluation core of the
identity-aware-healthcare-rag-mcp repository.

Python dictionaries are modelled as association lists over a small inductive
`Value` type (the subset of Python values the policy core manipulates);
Python exceptions raised by tool handlers or rule conditions are modelled
as `Except String`; file-system and network collaborators (the knowledge
folder, the Pinecone index) are passed in as explicit parameters.
-/

/-- A Python value, as used by the policy core: None, bools, strings,
naturals, lists and dicts. -/
inductive Value where
  | null : Value
  | bool : Bool → Value
  | str : String → Value
  | nat : Nat → Value
  | list : List Value → Value
  | dict : List (String × Value) → Value
deriving Repr

/-- A Python dict with string keys: an association list, first binding wins
(Python dict keys are unique; lookups read the single binding). -/
abbrev Dict := List (String × Value)

/-- `d.get(k)`: first binding for `k`, if any. -/
def dictGet (d : Dict) (k : String) : Option Value :=
  match d with
  | [] => none
  | (k', v) :: rest => if k' = k then some v else dictGet rest k

/-- `k in d` for a Python dict. -/
def dictHasKey (d : Dict) (k : String) : Bool :=
  (dictGet d k).isSome

/-- Python truthiness for the values the core inspects:
None, False, "", 0, [], {} are falsy. -/
def truthy : Value → Bool
  | Value.null => false
  | Value.bool b => b
  | Value.str s => s ≠ ""
  | Value.nat n => n ≠ 0
  | Value.list l => !l.isEmpty
  | Value.dict d => !d.isEmpty

/-- Truthiness of `d.get(k)` (Python: a missing key yields None, falsy). -/
def truthyOpt : Option Value → Bool
  | none => false
  | some v => truthy v

/-- How a value renders inside an f-string. Only the scalar cases are ever
interpolated by the embedded code paths (role names in error messages);
container rendering is not decision logic and is kept coarse. -/
def vstr : Value → String
  | Value.null => "None"
  | Value.bool true => "True"
  | Value.bool false => "False"
  | Value.str s => s
  | Value.nat n => toString n
  | Value.list _ => "[...]"
  | Value.dict _ => "{...}"

/-- `v in l` where `l` is a list of Python strings: only a string value can
be a member. Used for role-membership tests against configured role lists. -/
def valueInStrList (v : Option Value) (l : List String) : Bool :=
  match v with
  | some (Value.str s) => l.contains s
  | _ => false

/-! ## MCP server (lab_platform/mcp_layer/mcp_server/server.py) -/

/-- The `context` dict passed to every tool handler by `run_tool`. -/
structure HandlerCtx where
  caller : Dict
  tool_config : Dict

/-- A registered tool (dataclass `Tool` in server.py). The handler models a
Python callable that may raise: `Except.error` is a raised exception whose
message is the string payload. -/
structure McpTool where
  handler : Dict → HandlerCtx → Except String Dict
  allowed_requester_roles : List String
  config : Dict

/-- The `self.tools` registry of `MCPServer`: tool name → tool. -/
abbrev ToolTable := List (String × McpTool)

/-- Lookup in the tool registry (`self.tools[tool_name]` / `in` test). -/
def toolFind (tools : ToolTable) (name : String) : Option McpTool :=
  match tools with
  | [] => none
  | (n, t) :: rest => if n = name then some t else toolFind rest name

/-- One evidence record as appended by `MCPServer._log` (the timestamp field
is wall-clock I/O and carries no decision logic; it is omitted). -/
structure LogRecord where
  tool : String
  caller : Dict
  input : Dict
  result : Dict
  allowed : Bool

/-- `MCPServer.run_tool`: resolve the tool, gate on
`allowed_requester_roles`, execute the handler catching any fault, normalize
the success flag, and log exactly one evidence record on every path.
Returns the result dict together with the list of records appended. -/
def run_tool (tools : ToolTable) (tool_name : String)
    (input_data caller : Dict) : Dict × List LogRecord :=
  match toolFind tools tool_name with
  | none =>
      let result : Dict :=
        [("success", Value.bool false),
         ("error", Value.str ("Unknown tool: " ++ tool_name))]
      (result, [⟨tool_name, caller, input_data, result, false⟩])
  | some tool =>
      let caller_role := dictGet caller "role"
      if tool.allowed_requester_roles ≠ [] ∧
          ¬ valueInStrList caller_role tool.allowed_requester_roles then
        let result : Dict :=
          [("success", Value.bool false),
           ("error", Value.str ("Role " ++ vstr ((caller_role).getD Value.null)
              ++ " not allowed to run " ++ tool_name))]
        (result, [⟨tool_name, caller, input_data, result, false⟩])
      else
        let ctx : HandlerCtx := ⟨caller, tool.config⟩
        match tool.handler input_data ctx with
        | Except.ok output =>
            let result : Dict :=
              if dictHasKey output "success" then output
              else ("success", Value.bool true) :: output
            (result, [⟨tool_name, caller, input_data, result, true⟩])
        | Except.error exc =>
            let result : Dict :=
              [("success", Value.bool false), ("error", Value.str exc)]
            (result, [⟨tool_name, caller, input_data, result, true⟩])

/-! ## Policy engine (lab_platform/identity_gateway/policy_engine.py) -/

/-- Configuration of one role in `abac_policies.yaml` (`rag_access` and
`mcp_tools` lists; an absent or None-valued key reads back as `[]` via
`role_cfg.get(..., []) or []`). -/
structure RoleCfg where
  rag_access : List String
  mcp_tools : List String

/-- The `roles` mapping of the policy config: role name → config. -/
abbrev RoleTable := List (String × RoleCfg)

/-- `self.roles.get(role)`. -/
def lookupRole (roles : RoleTable) (role : String) : Option RoleCfg :=
  match roles with
  | [] => none
  | (r, cfg) :: rest => if r = role then some cfg else lookupRole rest role

/-- `PolicyEngine.get_rag_scopes_for_role`: unknown role reads back `{}`,
whose `rag_access` is `[]`. -/
def get_rag_scopes_for_role (roles : RoleTable) (role : String) :
    List String :=
  match lookupRole roles role with
  | none => []
  | some cfg => cfg.rag_access

/-- `PolicyEngine.is_tool_allowed_for_role`: wildcard `*` grants every tool;
otherwise membership in the role's `mcp_tools` list. -/
def is_tool_allowed_for_role (roles : RoleTable) (role : String)
    (tool_name : String) : Bool :=
  let tools :=
    match lookupRole roles role with
    | none => []
    | some cfg => cfg.mcp_tools
  if tools.contains "*" then true else tools.contains tool_name

/-- Module-level `is_tool_allowed` (server-side IAM tool list,
`mcp_tool_policies.yaml`): role entry absent or falsy → deny; empty
`allowed_tools` → deny; wildcard → allow; else membership. A role mapped to
an empty/None config dict is falsy in Python and indistinguishable from an
absent role for this check, so the table maps each role directly to its
`allowed_tools` list. -/
def is_tool_allowed (policies : List (String × List String))
    (role : String) (tool_name : String) : Bool :=
  match policies.find? (fun p => p.1 = role) with
  | none => false
  | some (_, allowed) =>
      if allowed = [] then false
      else if allowed.contains "*" then true
      else allowed.contains tool_name

/-! ## ABAC evaluation (policy_engine.py, evaluate_abac_for_doc) -/

/-- One entry of `abac_rules` in the policy config. The YAML `condition`
field is Python expression text evaluated by `eval` over `{claims, doc}`;
its evaluation is embedded as a function that either yields the boolean
(after Python's `bool(...)` coercion) or raises, with the sandboxed empty
`__builtins__` environment implicit in the function. An absent/None
`applies_to` reads back as the empty list (both are falsy). -/
structure AbacRule where
  name : String
  applies_to : List String
  cond : Dict → Dict → Except String Bool
  deny_when_false : List String

/-- `if applies_to and scope not in applies_to: continue` — the rule is
evaluated iff `applies_to` is empty (falsy) or contains the scope. -/
def ruleApplies (r : AbacRule) (scope : String) : Bool :=
  r.applies_to.isEmpty || r.applies_to.contains scope

/-- The reason string appended when a rule's condition raises. -/
def ruleErrorReason (r : AbacRule) (e : String) : String :=
  "Rule " ++ r.name ++ " error: " ++ e

/-- The reason string appended when a rule's condition is false (the deny
tags are rendered as a list literal, as Python interpolates them). -/
def ruleFailReason (r : AbacRule) : String :=
  "Rule " ++ r.name ++ " failed; deny tags: " ++ toString r.deny_when_false

/-- One iteration of the rule loop of `evaluate_abac_for_doc`, acting on the
accumulated `(allowed, reasons)` state. -/
def abacStep (claims doc : Dict) (scope : String)
    (acc : Bool × List String) (r : AbacRule) : Bool × List String :=
  if ruleApplies r scope then
    match r.cond claims doc with
    | Except.error e => (false, acc.2 ++ [ruleErrorReason r e])
    | Except.ok true => acc
    | Except.ok false => (false, acc.2 ++ [ruleFailReason r])
  else acc

/-- `PolicyEngine.evaluate_abac_for_doc`: fold the rule loop from
`allowed = True, reasons = []`. -/
def evaluate_abac_for_doc (rules : List AbacRule) (claims doc : Dict)
    (scope : String) : Bool × List String :=
  rules.foldl (abacStep claims doc scope) (true, [])

/-- Whether one rule lets the evaluation keep its `allowed` state: it is
skipped, or its condition evaluates to true. -/
def rulePasses (claims doc : Dict) (scope : String) (r : AbacRule) : Bool :=
  if ruleApplies r scope then
    match r.cond claims doc with
    | Except.ok true => true
    | _ => false
  else true

/-- The reasons one rule contributes (empty when skipped or passing). -/
def ruleReasons (claims doc : Dict) (scope : String) (r : AbacRule) :
    List String :=
  if ruleApplies r scope then
    match r.cond claims doc with
    | Except.error e => [ruleErrorReason r e]
    | Except.ok true => []
    | Except.ok false => [ruleFailReason r]
  else []

/-- `tool_name.startswith("identity_")`, as a character-list test. -/
def startsWithIdentity (tool_name : String) : Bool :=
  "identity_".data.isPrefixOf tool_name.data

/-- `claims.get("license_status") != "valid"`, negated: only the exact
string "valid" compares equal (None and non-string values never do). -/
def licenseIsValid (claims : Dict) : Bool :=
  match dictGet claims "license_status" with
  | some (Value.str s) => s = "valid"
  | _ => false

/-- `PolicyEngine.evaluate_tool_abac`: deny on a falsy `role` claim, then on
the role-based tool list, then (for `identity_`-prefixed tools) on a
`license_status` claim that is not the string "valid". Role values that are
not strings are truthy or falsy per `truthy`; a truthy non-string role never
matches a configured role name (YAML role keys are strings), which the
string match below reflects. -/
def evaluate_tool_abac (roles : RoleTable) (claims : Dict)
    (tool_name : String) : Bool × List String :=
  let roleV := dictGet claims "role"
  if !truthyOpt roleV then (false, ["Missing role in claims"])
  else
    let allowed :=
      match roleV with
      | some (Value.str s) => is_tool_allowed_for_role roles s tool_name
      | _ => false
    if !allowed then
      (false, ["Tool " ++ tool_name ++ " not allowed for role "
        ++ vstr (roleV.getD Value.null)])
    else if startsWithIdentity tool_name && !licenseIsValid claims then
      (false, ["license_status not valid for identity tools"])
    else (true, [])

/-! ## RAG orchestrator (lab_platform/rag_layer/orchestrator.py) -/

/-- One namespace entry of `rag_config.yaml`: the roles allowed to use it
and the RAG scopes it serves (absent keys read back as `[]`). -/
structure NamespaceCfg where
  allowed_roles : List String
  rag_scopes : List String

/-- The configured `namespaces` mapping, in configuration (insertion)
order, as Python dict iteration visits it. -/
abbrev NamespaceTable := List (String × NamespaceCfg)

/-- Whether one configured namespace matches a (role, scope) pair. -/
def nsMatches (role scope : String) (p : String × NamespaceCfg) : Bool :=
  p.2.allowed_roles.contains role && p.2.rag_scopes.contains scope

/-- `RAGOrchestrator.select_namespace`: scan the configured namespaces in
order and return the name of the first whose `allowed_roles` contains the
role and whose `rag_scopes` contains the scope; `None` when the scan finds
nothing. -/
def select_namespace (nss : NamespaceTable) (role scope : String) :
    Option String :=
  match nss with
  | [] => none
  | (n, cfg) :: rest =>
      if nsMatches role scope (n, cfg) then some n
      else select_namespace rest role scope

/-- One walrus block of `build_metadata_filter`: if the claim attribute
`attr` is present and truthy, one filter binding under `key`, else none. -/
def filterEntry (claims : Dict) (attr key : String) : Dict :=
  match dictGet claims attr with
  | some v => if truthy v then [(key, v)] else []
  | none => []

/-- `RAGOrchestrator.build_metadata_filter`: project the truthy claim
attributes department, clinic_id, clearance (stored under the filter key
`clearance_level`) and region into the filter dict, in that order; a falsy
or absent claim contributes nothing. -/
def build_metadata_filter (claims : Dict) : Dict :=
  filterEntry claims "department" "department" ++
  filterEntry claims "clinic_id" "clinic_id" ++
  filterEntry claims "clearance" "clearance_level" ++
  filterEntry claims "region" "region"

/-! ## Local knowledge fallback (lab_platform/rag_layer/local_knowledge.py) -/

/-- One local markdown document as `_load_docs_for_namespace` returns it:
a dict with exactly the keys path, title, preview. -/
structure LocalDoc where
  path : String
  title : String
  preview : String

/-- A local doc as the dict `search_local_docs` places in `docs`. -/
def docToValue (d : LocalDoc) : Value :=
  Value.dict [("path", Value.str d.path), ("title", Value.str d.title),
    ("preview", Value.str d.preview)]

/-- `claims.get(k, "Unknown")` restricted to the string case the answer
template interpolates (a non-string claim renders via `vstr`). -/
def claimOrUnknown (claims : Dict) (k : String) : String :=
  match dictGet claims k with
  | none => "Unknown"
  | some v => vstr v

/-- `search_local_docs`: truncate the namespace's docs to `max_docs` and
synthesize the demo answer string; both answer templates embed the query
text after "Query: ". The filesystem walk of `_load_docs_for_namespace` is
passed in as `loadDocs` (namespace → its docs, in sorted path order). -/
def search_local_docs (loadDocs : String → List LocalDoc) (ns : String)
    (query_text : String) (claims : Dict) (max_docs : Nat) :
    List LocalDoc × String :=
  let docs := (loadDocs ns).take max_docs
  let role := claimOrUnknown claims "role"
  let dept := claimOrUnknown claims "department"
  let answer :=
    if docs.isEmpty then
      "[LOCAL DEMO] No local docs found for namespace '" ++ ns ++ "'. "
        ++ "User role='" ++ role ++ "', department='" ++ dept ++ "'. "
        ++ "Query: " ++ query_text
    else
      "[LOCAL DEMO] Answer for role='" ++ role ++ "', dept='" ++ dept
        ++ "', namespace='" ++ ns ++ "'.\n"
        ++ "Query: " ++ query_text ++ "\n"
        ++ "Relevant local docs: "
        ++ String.intercalate ", " (docs.map LocalDoc.title)
  (docs, answer)

/-! ## RAG query entrypoint (RAGOrchestrator.query) -/

/-- The outcome of `RAGOrchestrator._get_index()`: either a live index,
abstracted as a query function returning Pinecone match dicts, or a raised
`RuntimeError` (pinecone missing, API key unset, or init failure). -/
inductive IndexInit where
  | failed (err : String)
  | live (runQuery : String → Nat → Dict → List Dict)

/-- `RAGOrchestrator.query`: deny on a falsy role claim, deny when no
namespace matches, then answer either from the live index or — when index
initialization raised — from the local-knowledge fallback, which is an
allowed result, never an error. `top_k or defaults.get("top_k", 5)` treats
a passed 0 as falsy and substitutes the configured default. -/
def rag_query (nss : NamespaceTable) (default_top_k : Nat)
    (index : IndexInit) (loadDocs : String → List LocalDoc)
    (query_text : String) (claims : Dict) (requested_scope : String)
    (top_k : Option Nat) : Dict :=
  let roleV := dictGet claims "role"
  if !truthyOpt roleV then
    [("allowed", Value.bool false), ("namespace", Value.null),
     ("matches", Value.list []),
     ("reason", Value.str "Missing role in claims (claims.role is required)")]
  else
    let nsOpt :=
      match roleV with
      | some (Value.str s) => select_namespace nss s requested_scope
      | _ => none
    match nsOpt with
    | none =>
        [("allowed", Value.bool false), ("namespace", Value.null),
         ("matches", Value.list []),
         ("reason", Value.str ("No namespace configured for role="
            ++ vstr (roleV.getD Value.null) ++ ", scope=" ++ requested_scope))]
    | some ns =>
        let metadata_filter := build_metadata_filter claims
        let k := match top_k with
          | some k => if k ≠ 0 then k else default_top_k
          | none => default_top_k
        match index with
        | IndexInit.failed exc =>
            let localRes := search_local_docs loadDocs ns query_text claims k
            [("allowed", Value.bool true), ("namespace", Value.str ns),
             ("matches", Value.list (localRes.1.map docToValue)),
             ("reason", Value.str
                ("RAG using local knowledge instead of Pinecone: " ++ exc)),
             ("query_text", Value.str query_text),
             ("metadata_filter", Value.dict metadata_filter),
             ("local_answer", Value.str localRes.2)]
        | IndexInit.live runQuery =>
            let hits := runQuery ns k metadata_filter
            [("allowed", Value.bool true), ("namespace", Value.str ns),
             ("matches", Value.list (hits.map Value.dict)),
             ("query_text", Value.str query_text),
             ("metadata_filter", Value.dict metadata_filter)]

/-! ## Helper lemmas -/

/-- The reasons contributed by a whole rule list, in order. -/
def abacReasonsAll (claims doc : Dict) (scope : String) :
    List AbacRule → List String
  | [] => []
  | r :: rest => ruleReasons claims doc scope r
      ++ abacReasonsAll claims doc scope rest

lemma abacReasonsAll_append (claims doc : Dict) (scope : String)
    (l₁ l₂ : List AbacRule) :
    abacReasonsAll claims doc scope (l₁ ++ l₂) =
      abacReasonsAll claims doc scope l₁ ++ abacReasonsAll claims doc scope l₂ := by
  induction l₁ with
  | nil => simp [abacReasonsAll]
  | cons r rest ih => simp [abacReasonsAll, ih]

/-- Closed form of the rule-loop fold: the final `allowed` is the starting
flag conjoined with every rule passing, and the reasons are appended in
rule order to the starting reasons. -/
lemma abac_foldl_spec (claims doc : Dict) (scope : String)
    (rules : List AbacRule) (acc : Bool × List String) :
    rules.foldl (abacStep claims doc scope) acc =
      (acc.1 && rules.all (rulePasses claims doc scope),
       acc.2 ++ abacReasonsAll claims doc scope rules) := by
  induction rules generalizing acc with
  | nil => simp [abacReasonsAll]
  | cons r rest ih =>
      simp only [List.foldl_cons, List.all_cons, abacReasonsAll]
      rw [ih]
      unfold abacStep rulePasses ruleReasons
      cases hap : ruleApplies r scope with
      | false => simp
      | true =>
          cases hc : r.cond claims doc with
          | error e => simp [Bool.and_assoc]
          | ok b => cases b <;> simp [Bool.and_assoc]

/-- Closed form of `evaluate_abac_for_doc`. -/
lemma evaluate_abac_spec (rules : List AbacRule) (claims doc : Dict)
    (scope : String) :
    evaluate_abac_for_doc rules claims doc scope =
      (rules.all (rulePasses claims doc scope),
       abacReasonsAll claims doc scope rules) := by
  unfold evaluate_abac_for_doc
  rw [abac_foldl_spec]
  simp

lemma dictGet_append (d₁ d₂ : Dict) (k : String) :
    dictGet (d₁ ++ d₂) k =
      match dictGet d₁ k with
      | some v => some v
      | none => dictGet d₂ k := by
  induction d₁ with
  | nil => simp [dictGet]
  | cons p rest ih =>
      obtain ⟨k', v⟩ := p
      by_cases h : k' = k <;> simp [dictGet, h, ih]

/-- `dictGet claims k`, filtered to truthy values only. -/
def truthyGet (claims : Dict) (k : String) : Option Value :=
  match dictGet claims k with
  | some v => if truthy v then some v else none
  | none => none

lemma dictGet_filterEntry (claims : Dict) (attr key k : String) :
    dictGet (filterEntry claims attr key) k =
      if k = key then truthyGet claims attr else none := by
  unfold filterEntry truthyGet
  cases dictGet claims attr with
  | none => simp [dictGet]
  | some v =>
      by_cases ht : truthy v
      · by_cases hk : k = key
        · subst hk; simp [dictGet, ht]
        · simp [dictGet, ht, hk, Ne.symm hk]
      · simp [dictGet, ht]

/-- When the RBAC gate does not fire (empty allowed-roles list, or the
caller's role is listed), `run_tool` reaches the execute step and returns
the handler's outcome: a caught fault becomes a structured error dict, a
success dict without a `success` key gains `success: true`. -/
lemma run_tool_exec (tools : ToolTable) (tool_name : String)
    (input_data caller : Dict) (t : McpTool)
    (hfind : toolFind tools tool_name = some t)
    (hpass : t.allowed_requester_roles = [] ∨
      valueInStrList (dictGet caller "role") t.allowed_requester_roles = true) :
    (run_tool tools tool_name input_data caller).1 =
      (match t.handler input_data ⟨caller, t.config⟩ with
       | Except.ok output =>
           if dictHasKey output "success" then output
           else ("success", Value.bool true) :: output
       | Except.error exc =>
           [("success", Value.bool false), ("error", Value.str exc)]) := by
  have hcond : ¬(t.allowed_requester_roles ≠ [] ∧
      ¬ valueInStrList (dictGet caller "role") t.allowed_requester_roles) := by
    rcases hpass with h | h
    · intro hc; exact hc.1 h
    · intro hc; exact hc.2 (by simp [h])
  unfold run_tool
  rw [hfind]
  simp only [if_neg hcond]
  cases t.handler input_data ⟨caller, t.config⟩ <;> simp

/-- C6: every call to `run_tool` — unknown tool, RBAC denial, handler
fault, or success — appends exactly one evidence record before returning;
no path exits without recording. -/
theorem run_tool_logs_exactly_once (tools : ToolTable) (tool_name : String)
    (input_data caller : Dict) :
    ((run_tool tools tool_name input_data caller).2).length = 1 := by
  unfold run_tool
  cases toolFind tools tool_name with
  | none => simp
  | some t =>
      by_cases h : t.allowed_requester_roles ≠ [] ∧
          ¬ valueInStrList (dictGet caller "role") t.allowed_requester_roles
      · simp [h]
      · simp only [if_neg h]
        cases t.handler input_data ⟨caller, t.config⟩ <;> simp

/-- C7: with the tool resolved and the RBAC gate passed, `run_tool` returns
exactly the handler outcome with faults converted to
`{success: false, error: message}` (never re-raised — the return type is a
plain result dict) and a flag-less success dict normalized to
`{success: true, ...output}`. -/
theorem run_tool_catches_faults_and_normalizes (tools : ToolTable)
    (tool_name : String) (input_data caller : Dict) (t : McpTool)
    (hfind : toolFind tools tool_name = some t)
    (hpass : t.allowed_requester_roles = [] ∨
      valueInStrList (dictGet caller "role") t.allowed_requester_roles = true) :
    (run_tool tools tool_name input_data caller).1 =
      (match t.handler input_data ⟨caller, t.config⟩ with
       | Except.ok output =>
           if dictHasKey output "success" then output
           else ("success", Value.bool true) :: output
       | Except.error exc =>
           [("success", Value.bool false), ("error", Value.str exc)]) :=
  run_tool_exec tools tool_name input_data caller t hfind hpass

/-- A tool whose handler raises, and a tool whose handler succeeds without
an explicit success flag. -/
def c7Boom : McpTool := ⟨fun _ _ => Except.error "kaboom", [], []⟩

def c7Echo : McpTool :=
  ⟨fun input _ => Except.ok [("echo", Value.dict input)], [], []⟩

def c7Tools : ToolTable := [("boom", c7Boom), ("echo", c7Echo)]

/-- Witness for C7 at a concrete raising handler and a concrete flag-less
success. -/
theorem run_tool_catches_faults_and_normalizes_witness :
    (run_tool c7Tools "boom" [] [("role", Value.str "Demo")]).1 =
      [("success", Value.bool false), ("error", Value.str "kaboom")] ∧
    (run_tool c7Tools "echo" [("m", Value.str "hi")] [("role", Value.str "Demo")]).1 =
      [("success", Value.bool true),
       ("echo", Value.dict [("m", Value.str "hi")])] :=
  ⟨run_tool_catches_faults_and_normalizes c7Tools "boom" [] [("role", Value.str "Demo")]
      c7Boom rfl (Or.inl rfl),
   run_tool_catches_faults_and_normalizes c7Tools "echo" [("m", Value.str "hi")]
      [("role", Value.str "Demo")] c7Echo rfl (Or.inl rfl)⟩

/-- A tool registered with an empty `allowed_requester_roles` list, as the
C1 claim describes ("permits nobody"). -/
def c1DisableUser : McpTool :=
  ⟨fun _ _ => Except.ok [("disabled", Value.bool true)], [], []⟩

def c1Tools : ToolTable := [("identity_disable_user", c1DisableUser)]

/-- C1 counterexample: for a tool whose allowed-roles list is empty and
holds no wildcard, `run_tool` with an arbitrary caller does NOT return the
claimed `{success: false, error: "... not allowed ..."}` — the RBAC gate is
skipped, the handler runs, and a success result comes back (with one
evidence record marked allowed). -/
theorem run_tool_empty_roles_counterexample :
    (run_tool c1Tools "identity_disable_user" []
        [("role", Value.str "Intern")]).1 =
      [("success", Value.bool true), ("disabled", Value.bool true)] ∧
    (run_tool c1Tools "identity_disable_user" []
        [("role", Value.str "Intern")]).2.map LogRecord.allowed = [true] :=
  ⟨rfl, rfl⟩

/-- C1 amended: in `run_tool`, a tool whose `allowed_requester_roles` list
is empty is runnable by every caller — the truthiness test on the list
skips the RBAC gate and the handler is invoked; the
empty-list-permits-nobody semantics belongs to the IAM tool-list check
`is_tool_allowed`, where an absent role entry or an empty `allowed_tools`
list denies every tool (only a wildcard or explicit membership allows). -/
theorem run_tool_empty_roles_amended :
    (∀ (tools : ToolTable) (tool_name : String) (input_data caller : Dict)
        (t : McpTool), toolFind tools tool_name = some t →
        t.allowed_requester_roles = [] →
        (run_tool tools tool_name input_data caller).1 =
          (match t.handler input_data ⟨caller, t.config⟩ with
           | Except.ok output =>
               if dictHasKey output "success" then output
               else ("success", Value.bool true) :: output
           | Except.error exc =>
               [("success", Value.bool false), ("error", Value.str exc)])) ∧
    (∀ (policies : List (String × List String)) (role tool_name : String),
        (policies.find? (fun p => p.1 = role) = none →
          is_tool_allowed policies role tool_name = false) ∧
        (∀ r', policies.find? (fun p => p.1 = role) = some (r', []) →
          is_tool_allowed policies role tool_name = false)) := by
  constructor
  · intro tools tool_name input_data caller t hfind hempty
    exact run_tool_exec tools tool_name input_data caller t hfind (Or.inl hempty)
  · intro policies role tool_name
    constructor
    · intro h; unfold is_tool_allowed; rw [h]
    · intro r' h; unfold is_tool_allowed; rw [h]; simp

/-- Witness for the amended C1 at concrete inputs: the empty-roles tool
executes for a caller with an unlisted role, and `is_tool_allowed` denies
both an absent role and a role with an empty tool list. -/
theorem run_tool_empty_roles_amended_witness :
    (run_tool c1Tools "identity_disable_user" []
        [("role", Value.str "Contractor")]).1 =
      [("success", Value.bool true), ("disabled", Value.bool true)] ∧
    is_tool_allowed [] "Ghost" "identity_disable_user" = false ∧
    is_tool_allowed [("Analyst", [])] "Analyst" "identity_disable_user"
      = false := by
  refine ⟨?_, ?_, ?_⟩
  · exact run_tool_empty_roles_amended.1 c1Tools "identity_disable_user" []
      [("role", Value.str "Contractor")] c1DisableUser rfl rfl
  · exact (run_tool_empty_roles_amended.2 [] "Ghost" "identity_disable_user").1 rfl
  · exact (run_tool_empty_roles_amended.2 [("Analyst", [])] "Analyst"
      "identity_disable_user").2 "Analyst" rfl

/-- The namespace-selection loop is first-match in configuration order. -/
lemma select_namespace_eq_find (nss : NamespaceTable) (role scope : String) :
    select_namespace nss role scope =
      (nss.find? (nsMatches role scope)).map Prod.fst := by
  induction nss with
  | nil => rfl
  | cons p rest ih =>
      obtain ⟨n, cfg⟩ := p
      by_cases h : nsMatches role scope (n, cfg)
      · simp [select_namespace, List.find?_cons_of_pos, h]
      · rw [List.find?_cons_of_neg _ h]
        simp only [select_namespace, h, if_false, Bool.false_eq_true, ih]

/-- Two configured namespaces that both serve the same (role, scope). -/
def c2Nss : NamespaceTable :=
  [("clinical_a", ⟨["Physician"], ["clinical_department"]⟩),
   ("clinical_b", ⟨["Physician"], ["clinical_department"]⟩)]

/-- C2 counterexample: with two namespaces matching
(Physician, clinical_department), the claim demands `none` (deny on
multiple match), but `select_namespace` returns the first match. -/
theorem select_namespace_multiple_match_counterexample :
    (c2Nss.filter (nsMatches "Physician" "clinical_department")).length = 2 ∧
    select_namespace c2Nss "Physician" "clinical_department"
      = some "clinical_a" :=
  ⟨rfl, rfl⟩

/-- C2 amended: `select_namespace` returns the first configured namespace
(in configuration order) whose allowed-roles set contains the role and
whose scopes set contains the scope, and returns none exactly when no
namespace matches; when several namespaces match, the first is returned —
multiplicity is not detected or denied. -/
theorem select_namespace_first_match (nss : NamespaceTable)
    (role scope : String) :
    select_namespace nss role scope =
      (nss.find? (nsMatches role scope)).map Prod.fst ∧
    (select_namespace nss role scope = none ↔
      nss.all (fun p => !nsMatches role scope p) = true) := by
  refine ⟨select_namespace_eq_find nss role scope, ?_⟩
  rw [select_namespace_eq_find]
  cases hf : nss.find? (nsMatches role scope) with
  | none =>
      rw [List.find?_eq_none] at hf
      simp only [Option.map_none', true_iff]
      rw [List.all_eq_true]
      intro p hp
      simpa using hf p hp
  | some p =>
      have := List.find?_some hf
      have hmem := List.mem_of_find?_eq_some hf
      simp only [Option.map_some', reduceCtorEq, false_iff]
      intro hall
      rw [List.all_eq_true] at hall
      have := hall p hmem
      simp [List.find?_some hf] at this

/-- A single matching namespace, and a scope nothing serves. -/
def c2OneNss : NamespaceTable :=
  [("clinical", ⟨["Physician"], ["clinical_department"]⟩)]

/-- Witness for the amended C2: the unique match is returned, and an
unserved scope yields none. -/
theorem select_namespace_first_match_witness :
    select_namespace c2OneNss "Physician" "clinical_department"
      = some "clinical" ∧
    select_namespace c2OneNss "Physician" "grc_all" = none := by
  constructor
  · exact ((select_namespace_first_match c2OneNss "Physician"
      "clinical_department").1).trans rfl
  · exact (select_namespace_first_match c2OneNss "Physician"
      "grc_all").2.mpr rfl

/-- C5: a role absent from the policy store gets the empty scope list and
no tool (wildcard included), with no exception — the lookups fall back to
the empty configuration. -/
theorem unknown_role_fail_safe (roles : RoleTable) (role tool_name : String)
    (h : lookupRole roles role = none) :
    get_rag_scopes_for_role roles role = [] ∧
    is_tool_allowed_for_role roles role tool_name = false := by
  unfold get_rag_scopes_for_role is_tool_allowed_for_role
  rw [h]
  simp

/-- The roles actually configured for the witness policy store. -/
def c5Roles : RoleTable :=
  [("Physician", ⟨["clinical_department"], ["echo"]⟩),
   ("IT_Admin", ⟨[], ["*"]⟩)]

/-- Witness for C5 at a role missing from the store. -/
theorem unknown_role_fail_safe_witness :
    get_rag_scopes_for_role c5Roles "Ghost" = [] ∧
    is_tool_allowed_for_role c5Roles "Ghost" "echo" = false :=
  unknown_role_fail_safe c5Roles "Ghost" "echo" rfl

/-- C3: a rule whose condition raises on the given (claims, doc, scope)
makes the overall decision a denial, contributes a reason naming the rule
and the error, and evaluation continues — the reasons of the earlier and
later rules are still collected, and nothing is raised to the caller (the
evaluator is a total function into `(allowed, reasons)`). -/
theorem abac_error_fail_safe (rules pre post : List AbacRule)
    (r : AbacRule) (claims doc : Dict) (scope : String) (e : String)
    (hsplit : rules = pre ++ r :: post)
    (hap : ruleApplies r scope = true)
    (herr : r.cond claims doc = Except.error e) :
    evaluate_abac_for_doc rules claims doc scope =
      (false,
       abacReasonsAll claims doc scope pre
         ++ ruleErrorReason r e :: abacReasonsAll claims doc scope post) := by
  subst hsplit
  rw [evaluate_abac_spec]
  rw [abacReasonsAll_append]
  have hfail : rulePasses claims doc scope r = false := by
    unfold rulePasses
    rw [hap, herr]
    simp
  have hreason : ruleReasons claims doc scope r = [ruleErrorReason r e] := by
    unfold ruleReasons
    rw [hap, herr]
    simp
  simp [List.all_append, hfail, abacReasonsAll, hreason]

/-- The rules of the C3 witness: one erroring rule, then one failing rule,
both applicable to the scope. -/
def c3ErrRule : AbacRule :=
  ⟨"dept_match", ["clinical_department"],
   fun _ _ => Except.error "name claims is not defined", []⟩

def c3FailRule : AbacRule :=
  ⟨"region_match", [], fun _ _ => Except.ok false, ["region_mismatch"]⟩

/-- Witness for C3: the erroring rule denies, its reason is recorded, and
the later rule is still evaluated (its reason follows). -/
theorem abac_error_fail_safe_witness :
    evaluate_abac_for_doc [c3ErrRule, c3FailRule] [] [] "clinical_department"
      = (false,
         [ruleErrorReason c3ErrRule "name claims is not defined",
          ruleFailReason c3FailRule]) :=
  abac_error_fail_safe [c3ErrRule, c3FailRule] [] [c3FailRule] c3ErrRule
    [] [] "clinical_department" "name claims is not defined" rfl rfl rfl

/-- Rules whose `applies_to` excludes the scope contribute no reason. -/
lemma abacReasonsAll_filter (claims doc : Dict) (scope : String)
    (rules : List AbacRule) :
    abacReasonsAll claims doc scope
        (rules.filter (fun r => ruleApplies r scope)) =
      abacReasonsAll claims doc scope rules := by
  induction rules with
  | nil => rfl
  | cons r rest ih =>
      by_cases h : ruleApplies r scope
      · simp [List.filter_cons, h, abacReasonsAll, ih]
      · have : ruleReasons claims doc scope r = [] := by
          unfold ruleReasons
          simp [h]
        simp [List.filter_cons, h, abacReasonsAll, ih, this]

/-- Rules whose `applies_to` excludes the scope pass trivially. -/
lemma all_rulePasses_filter (claims doc : Dict) (scope : String)
    (rules : List AbacRule) :
    (rules.filter (fun r => ruleApplies r scope)).all
        (rulePasses claims doc scope) =
      rules.all (rulePasses claims doc scope) := by
  induction rules with
  | nil => rfl
  | cons r rest ih =>
      by_cases h : ruleApplies r scope
      · simp [List.filter_cons, h, ih]
      · have : rulePasses claims doc scope r = true := by
          unfold rulePasses
          simp [h]
        simp [List.filter_cons, h, ih, this]

/-- C4: ABAC evaluation checks every applicable rule with no early exit —
rules excluded by `applies_to` are dropped without a trace, the decision
is the conjunction of the applicable rules' outcomes (any false or erroring
rule forces deny), and permuting the rule list can only reorder reasons,
never change the allow/deny outcome. -/
theorem abac_and_no_short_circuit (rules rules₂ : List AbacRule)
    (claims doc : Dict) (scope : String)
    (hperm : rules.Perm rules₂) :
    evaluate_abac_for_doc rules claims doc scope =
      evaluate_abac_for_doc (rules.filter (fun r => ruleApplies r scope))
        claims doc scope ∧
    (evaluate_abac_for_doc rules claims doc scope).1 =
      rules.all (rulePasses claims doc scope) ∧
    (evaluate_abac_for_doc rules claims doc scope).1 =
      (evaluate_abac_for_doc rules₂ claims doc scope).1 := by
  refine ⟨?_, ?_, ?_⟩
  · rw [evaluate_abac_spec, evaluate_abac_spec, abacReasonsAll_filter,
      all_rulePasses_filter]
  · rw [evaluate_abac_spec]
  · rw [evaluate_abac_spec, evaluate_abac_spec]
    simp only
    rw [Bool.eq_iff_iff, List.all_eq_true, List.all_eq_true]
    constructor
    · intro h x hx
      exact h x (hperm.mem_iff.mpr hx)
    · intro h x hx
      exact h x (hperm.mem_iff.mp hx)

/-- The rules of the C4 witness: one passing rule that applies everywhere
and one failing rule restricted to another scope. -/
def c4PassRule : AbacRule := ⟨"always_ok", [], fun _ _ => Except.ok true, []⟩

def c4OtherScopeRule : AbacRule :=
  ⟨"grc_only", ["grc_all"], fun _ _ => Except.ok false, ["grc_tag"]⟩

/-- Witness for C4 at a concrete rule list and its swap. -/
theorem abac_and_no_short_circuit_witness :
    evaluate_abac_for_doc [c4PassRule, c4OtherScopeRule] [] []
        "clinical_department" =
      evaluate_abac_for_doc
        ([c4PassRule, c4OtherScopeRule].filter
          (fun r => ruleApplies r "clinical_department")) [] []
        "clinical_department" ∧
    (evaluate_abac_for_doc [c4PassRule, c4OtherScopeRule] [] []
        "clinical_department").1 =
      [c4PassRule, c4OtherScopeRule].all
        (rulePasses [] [] "clinical_department") ∧
    (evaluate_abac_for_doc [c4PassRule, c4OtherScopeRule] [] []
        "clinical_department").1 =
      (evaluate_abac_for_doc [c4OtherScopeRule, c4PassRule] [] []
        "clinical_department").1 :=
  abac_and_no_short_circuit [c4PassRule, c4OtherScopeRule]
    [c4OtherScopeRule, c4PassRule] [] [] "clinical_department"
    (List.Perm.swap c4OtherScopeRule c4PassRule [])

/-- The local fallback search truncates to the requested bound and its
synthesized answer embeds the query text, in both answer templates. -/
lemma search_local_docs_spec (ld : String → List LocalDoc) (ns q : String)
    (cl : Dict) (m : Nat) :
    (search_local_docs ld ns q cl m).1.length ≤ m ∧
    ∃ a b, (search_local_docs ld ns q cl m).2 = a ++ q ++ b := by
  constructor
  · unfold search_local_docs
    simp [List.length_take]
  · unfold search_local_docs
    by_cases hd : ((ld ns).take m).isEmpty
    · refine ⟨"[LOCAL DEMO] No local docs found for namespace '" ++ ns
        ++ "'. " ++ "User role='" ++ claimOrUnknown cl "role"
        ++ "', department='" ++ claimOrUnknown cl "department" ++ "'. "
        ++ "Query: ", "", ?_⟩
      simp [hd, String.append_assoc]
    · refine ⟨"[LOCAL DEMO] Answer for role='" ++ claimOrUnknown cl "role"
        ++ "', dept='" ++ claimOrUnknown cl "department" ++ "', namespace='"
        ++ ns ++ "'.\n" ++ "Query: ",
        "\n" ++ "Relevant local docs: " ++ String.intercalate ", "
          (((ld ns).take m).map LocalDoc.title), ?_⟩
      simp [hd, String.append_assoc]

/-- C8: when index initialization fails (backend unconfigured or broken),
the fallback serves the query — in general the local search returns at most
`max_docs` documents with an answer containing the query text, and the
orchestrator's fallback branch returns an allowed result carrying exactly
those documents and that answer, raising nothing to the caller. -/
theorem rag_fallback_contract (nss : NamespaceTable) (dk : Nat)
    (err : String) (loadDocs : String → List LocalDoc) (q : String)
    (claims : Dict) (scope ro ns : String) (k : Nat)
    (hrole : dictGet claims "role" = some (Value.str ro)) (hro : ro ≠ "")
    (hns : select_namespace nss ro scope = some ns) (hk : k ≠ 0) :
    (∀ (ld : String → List LocalDoc) (ns' q' : String) (cl : Dict)
        (m : Nat), (search_local_docs ld ns' q' cl m).1.length ≤ m ∧
        ∃ a b, (search_local_docs ld ns' q' cl m).2 = a ++ q' ++ b) ∧
    dictGet (rag_query nss dk (IndexInit.failed err) loadDocs q claims
        scope (some k)) "allowed" = some (Value.bool true) ∧
    dictGet (rag_query nss dk (IndexInit.failed err) loadDocs q claims
        scope (some k)) "matches" =
      some (Value.list
        ((search_local_docs loadDocs ns q claims k).1.map docToValue)) ∧
    dictGet (rag_query nss dk (IndexInit.failed err) loadDocs q claims
        scope (some k)) "local_answer" =
      some (Value.str (search_local_docs loadDocs ns q claims k).2) := by
  refine ⟨fun ld ns' q' cl m => search_local_docs_spec ld ns' q' cl m,
    ?_, ?_, ?_⟩ <;>
  · unfold rag_query
    rw [hrole]
    have ht : truthy (Value.str ro) = true := by simp [truthy, hro]
    simp only [truthyOpt, ht, Bool.not_true, Bool.false_eq_true, if_false,
      hns, if_neg, hk, if_pos]
    simp [dictGet, hk]

/-- The namespace/knowledge configuration of the C8 witness. -/
def c8Nss : NamespaceTable :=
  [("clinical", ⟨["Physician"], ["clinical_department"]⟩)]

def c8Load : String → List LocalDoc := fun ns =>
  if ns = "clinical" then
    [⟨"docs/knowledge/clinical/a.md", "# Cardiology Protocols", "..."⟩,
     ⟨"docs/knowledge/clinical/b.md", "# Oncology Pathways", "..."⟩]
  else []

def c8Claims : Dict :=
  [("role", Value.str "Physician"), ("department", Value.str "Cardiology")]

/-- Witness for C8: with a broken index, one resolved namespace and
`top_k = 1`, the fallback result is allowed, carries at most one document
and synthesizes the local answer. -/
theorem rag_fallback_contract_witness :
    (search_local_docs c8Load "clinical" "chest pain protocol" c8Claims 1).1.length
      ≤ 1 ∧
    dictGet (rag_query c8Nss 5 (IndexInit.failed "Pinecone init failed")
        c8Load "chest pain protocol" c8Claims "clinical_department"
        (some 1)) "allowed" = some (Value.bool true) ∧
    dictGet (rag_query c8Nss 5 (IndexInit.failed "Pinecone init failed")
        c8Load "chest pain protocol" c8Claims "clinical_department"
        (some 1)) "matches" =
      some (Value.list
        ((search_local_docs c8Load "clinical" "chest pain protocol"
          c8Claims 1).1.map docToValue)) ∧
    dictGet (rag_query c8Nss 5 (IndexInit.failed "Pinecone init failed")
        c8Load "chest pain protocol" c8Claims "clinical_department"
        (some 1)) "local_answer" =
      some (Value.str
        (search_local_docs c8Load "clinical" "chest pain protocol"
          c8Claims 1).2) := by
  have h := rag_fallback_contract c8Nss 5 "Pinecone init failed" c8Load
    "chest pain protocol" c8Claims "clinical_department" "Physician"
    "clinical" 1 rfl (by decide) rfl (by decide)
  exact ⟨(h.1 c8Load "clinical" "chest pain protocol" c8Claims 1).1,
    h.2.1, h.2.2.1, h.2.2.2⟩

/-- C9: the metadata filter holds a binding for department, clinic_id,
clearance (under the filter key clearance_level) and region exactly when
the claim is present and truthy, carrying the claim's own value, and holds
no binding under any other key — nothing is defaulted. -/
theorem build_filter_projects_only_truthy (claims : Dict) :
    dictGet (build_metadata_filter claims) "department"
      = truthyGet claims "department" ∧
    dictGet (build_metadata_filter claims) "clinic_id"
      = truthyGet claims "clinic_id" ∧
    dictGet (build_metadata_filter claims) "clearance_level"
      = truthyGet claims "clearance" ∧
    dictGet (build_metadata_filter claims) "region"
      = truthyGet claims "region" ∧
    ∀ k, k ≠ "department" → k ≠ "clinic_id" → k ≠ "clearance_level" →
      k ≠ "region" → dictGet (build_metadata_filter claims) k = none := by
  unfold build_metadata_filter
  refine ⟨?_, ?_, ?_, ?_, ?_⟩
  · simp [dictGet_append, dictGet_filterEntry]
    cases truthyGet claims "department" <;> simp
  · simp [dictGet_append, dictGet_filterEntry]
    cases truthyGet claims "clinic_id" <;> simp
  · simp [dictGet_append, dictGet_filterEntry]
    cases truthyGet claims "clearance" <;> simp
  · simp [dictGet_append, dictGet_filterEntry]
  · intro k h1 h2 h3 h4
    simp [dictGet_append, dictGet_filterEntry, h1, h2, h3, h4]

/-- Claims of the C9 witness: department truthy, clinic_id empty (falsy),
region None (falsy), clearance absent. -/
def c9Claims : Dict :=
  [("sub", Value.str "u1"), ("role", Value.str "Physician"),
   ("department", Value.str "Cardiology"), ("clinic_id", Value.str ""),
   ("region", Value.null)]

/-- Witness for C9: only the truthy department claim is projected; the
empty, None, absent and non-filter attributes produce no binding. -/
theorem build_filter_projects_only_truthy_witness :
    dictGet (build_metadata_filter c9Claims) "department"
      = some (Value.str "Cardiology") ∧
    dictGet (build_metadata_filter c9Claims) "clinic_id" = none ∧
    dictGet (build_metadata_filter c9Claims) "clearance_level" = none ∧
    dictGet (build_metadata_filter c9Claims) "region" = none ∧
    dictGet (build_metadata_filter c9Claims) "role" = none := by
  have h := build_filter_projects_only_truthy c9Claims
  exact ⟨h.1.trans rfl, (h.2.1).trans rfl, (h.2.2.1).trans rfl,
    (h.2.2.2.1).trans rfl,
    h.2.2.2.2 "role" (by decide) (by decide) (by decide) (by decide)⟩

/-- C10: for a caller whose role is otherwise allowed to run the tool, an
`identity_`-prefixed tool with a license_status claim other than the string
"valid" is denied with the license reason, while a tool without the prefix
is exempt from the license check and allowed. -/
theorem identity_tools_require_valid_license (roles : RoleTable)
    (claims : Dict) (tool_name r : String)
    (hrole : dictGet claims "role" = some (Value.str r)) (hr : r ≠ "")
    (hallow : is_tool_allowed_for_role roles r tool_name = true) :
    (startsWithIdentity tool_name = true → licenseIsValid claims = false →
      evaluate_tool_abac roles claims tool_name =
        (false, ["license_status not valid for identity tools"])) ∧
    (startsWithIdentity tool_name = false →
      evaluate_tool_abac roles claims tool_name = (true, [])) := by
  have ht : truthy (Value.str r) = true := by simp [truthy, hr]
  constructor
  · intro hid hlic
    unfold evaluate_tool_abac
    rw [hrole]
    simp [truthyOpt, ht, hallow, hid, hlic]
  · intro hid
    unfold evaluate_tool_abac
    rw [hrole]
    simp [truthyOpt, ht, hallow, hid]

/-- Role table of the C10 witness: IT_Admin may run both tools. -/
def c10Roles : RoleTable :=
  [("IT_Admin", ⟨[], ["identity_disable_user", "company_lookup"]⟩)]

/-- Claims of the C10 witness: allowed role, expired license. -/
def c10Claims : Dict :=
  [("role", Value.str "IT_Admin"), ("license_status", Value.str "expired")]

/-- Witness for C10: the identity tool is denied on the license, the
non-identity tool is allowed despite the same license. -/
theorem identity_tools_require_valid_license_witness :
    evaluate_tool_abac c10Roles c10Claims "identity_disable_user" =
      (false, ["license_status not valid for identity tools"]) ∧
    evaluate_tool_abac c10Roles c10Claims "company_lookup" = (true, []) :=
  ⟨(identity_tools_require_valid_license c10Roles c10Claims
      "identity_disable_user" "IT_Admin" rfl (by decide) rfl).1
      (by decide) (by decide),
   (identity_tools_require_valid_license c10Roles c10Claims
      "company_lookup" "IT_Admin" rfl (by decide) rfl).2 (by decide)⟩
